import Mathlib

/-!
Verification of the batch collater in `src/utils.py` (repository h4rr9/afti).

The source builds a batch-collation function for a vision-language training
pipeline: it merges a palette-encoded image string and a caption into one
prompt per example, randomly choosing which modality appears first, tokenizes
the batch with padding, and computes a boolean mask over the image-token span.

The shallow embedding below translates `_collater` and `prepare_tokenizer`
into pure Lean functions.  Machine floats (`p`, the draws of the numpy
generator) are modelled as rationals; the numpy `Generator` is modelled as an
explicit state holding a stream of uniform draws and a stream of choice
indices; the external Hugging Face tokenizer is modelled abstractly by a
function from strings to token-id lists together with a vocabulary list, per
the collaborator contract (tokenizing a batch prepends one sequence-start
token per row and right-pads to the longest row).
-/

namespace Afti

/-- Constant `IMAGE_DIM = 32` from `src/utils.py` line 15. -/
def IMAGE_DIM : ℕ := 32

/-- Constant `IMAGE_LEN = IMAGE_DIM * IMAGE_DIM` from `src/utils.py` line 16. -/
def IMAGE_LEN : ℕ := IMAGE_DIM * IMAGE_DIM

/-- Constant `NUM_COLORS = 512` from `src/utils.py` line 17. -/
def NUM_COLORS : ℕ := 512

/-- Left-pad a string with the character 0 to width 3, embedding the Python
format spec used in the pixel-token f-string. -/
def zeroPad3 (s : String) : String :=
  String.mk (List.replicate (3 - s.length) '0') ++ s

/-- The list `PIXEL_TOKENS` of 512 zero-padded bracketed colour codes
(`src/utils.py` line 23). -/
def PIXEL_TOKENS : List String :=
  (List.range NUM_COLORS).map (fun i => "[" ++ zeroPad3 (toString i) ++ "]")

/-- Marker `IMAGE_TOKEN` (`src/utils.py` line 24). -/
def IMAGE_TOKEN : String := "[Image]"

/-- Marker `IMAGE_FIRST_TOKEN` (`src/utils.py` line 25). -/
def IMAGE_FIRST_TOKEN : String := "[ImageFirst]"

/-- Marker `TEXT_TOKEN` (`src/utils.py` line 26). -/
def TEXT_TOKEN : String := "[Text]"

/-- Marker `TEXT_FIRST_TOKEN` (`src/utils.py` line 27). -/
def TEXT_FIRST_TOKEN : String := "[TextFirst]"

/-- Model of the external tokenizer collaborator: a vocabulary (a list of
surface tokens, order of registration preserved), a tokenization function
returning token ids without special markers, a sequence-start id and a pad
id.  The batched call prepends `bos` to each row and right-pads with `pad`. -/
structure Tokenizer where
  vocab : List String
  tokenize : String → List ℕ
  bos : ℕ
  pad : ℕ

/-- Model of the numpy `Generator`: a stream of uniform draws in `[0,1)`
consumed by `random()` and a stream of indices consumed by `choice`. -/
structure Rng where
  uniforms : List ℚ
  choices : List ℕ

/-- One call of `rng.random()`: return the next uniform draw and the advanced
state.  An exhausted stream yields 0. -/
def Rng.random (r : Rng) : ℚ × Rng :=
  (r.uniforms.headD 0, { r with uniforms := r.uniforms.tail })

/-- One index draw backing `rng.choice`: return the next choice index and the
advanced state. -/
def Rng.choiceIdx (r : Rng) : ℕ × Rng :=
  (r.choices.headD 0, { r with choices := r.choices.tail })

/-- The `captions` field of an example: a single string or a list of strings
(`src/utils.py` line 48). -/
inductive Captions where
  | str (s : String)
  | list (l : List String)
deriving DecidableEq

/-- One training record, with the two fields `_collater` reads
(`src/utils.py` lines 58-59). -/
structure Example where
  palette_images : String
  captions : Captions

/-- Caption resolution (`src/utils.py` line 65):
`caption = captions if type(captions) is str else rng.choice(captions)`.
A list caption consumes one choice index; `rng.choice` picks the element at
that index (reduced modulo the length). -/
def resolveCaption (c : Captions) (r : Rng) : String × Rng :=
  match c with
  | .str s => (s, r)
  | .list l =>
      let k := r.choiceIdx.1
      (l.getD (k % l.length) "", r.choiceIdx.2)

/-- Prompt composition (`src/utils.py` lines 67-71): text-first is
`[TextFirst]` + caption + `[Image]` + image, image-first is
`[ImageFirst]` + image + `[Text]` + caption. -/
def composePrompt (coin : Bool) (image caption : String) : String :=
  if coin then TEXT_FIRST_TOKEN ++ caption ++ IMAGE_TOKEN ++ image
  else IMAGE_FIRST_TOKEN ++ image ++ TEXT_TOKEN ++ caption

/-- Image start position (`src/utils.py` lines 73-80):
`3 + len(tokenizer.tokenize(caption))` when text-first, else `2`. -/
def imageStartPosition (tok : Tokenizer) (coin : Bool) (caption : String) : ℕ :=
  if coin then 3 + (tok.tokenize caption).length else 2

/-- One iteration of the per-example loop (`src/utils.py` lines 62-84):
draw the coin, resolve the caption, build the prompt, compute the image start
position and the kind.  Returns `((prompt, position, kind), rng)`. -/
def composeExample (tok : Tokenizer) (p : ℚ) (r : Rng) (ex : Example) :
    (String × ℕ × ℕ) × Rng :=
  let u := r.random.1
  let r1 := r.random.2
  let coin : Bool := decide (u > 1 - p)
  let caption := (resolveCaption ex.captions r1).1
  let r2 := (resolveCaption ex.captions r1).2
  ((composePrompt coin ex.palette_images caption,
    imageStartPosition tok coin caption,
    if coin then 1 else 0), r2)

/-- The whole per-example loop over the batch, threading the rng state and
collecting the `(prompt, position, kind)` triples in input order. -/
def composeLoop (tok : Tokenizer) (p : ℚ) :
    Rng → List Example → List (String × ℕ × ℕ) × Rng
  | r, [] => ([], r)
  | r, ex :: rest =>
      let step := composeExample tok p r ex
      let restRes := composeLoop tok p step.2 rest
      (step.1 :: restRes.1, restRes.2)

/-- Batched tokenizer call before padding: each prompt becomes its token ids
with one leading sequence-start token (the collaborator contract of
`tokenizer(prompts, return_tensors="pt", padding=True)`). -/
def encodeAll (tok : Tokenizer) (prompts : List String) : List (List ℕ) :=
  prompts.map (fun s => tok.bos :: tok.tokenize s)

/-- Width of the padded grid: the longest row, as `padding=True` pads to the
longest sequence in the batch. -/
def padWidth (ls : List (List ℕ)) : ℕ :=
  ls.foldr (fun l m => max l.length m) 0

/-- Right-pad one row of ids to width `w` with the pad id. -/
def padRow (padTok w : ℕ) (l : List ℕ) : List ℕ :=
  l ++ List.replicate (w - l.length) padTok

/-- Attention-mask row: 1 over the real tokens, 0 over the padding. -/
def attnRow (w : ℕ) (l : List ℕ) : List ℕ :=
  List.replicate l.length 1 ++ List.replicate (w - l.length) 0

/-- Embedding of the slice assignment `image_mask[a : b] = True`
(`src/utils.py` line 93) on a boolean row: positions in `[a, b)` become true,
the rest are kept; like a Python slice the write clamps to the row and never
grows it. -/
def setTrueSlice : List Bool → ℕ → ℕ → List Bool
  | [], _, _ => []
  | x :: xs, a, b =>
      (if a = 0 ∧ 0 < b then true else x) :: setTrueSlice xs (a - 1) (b - 1)

/-- The output of a successful `_collater` call: the four keys set on `batch`
(`src/utils.py` lines 87-96), and nothing else. -/
structure BatchRecord where
  input_ids : List (List ℕ)
  attention_mask : List (List ℕ)
  image_masks : List (List Bool)
  kinds : List ℕ

/-- The `prompts` list accumulated by the loop, in input order. -/
def promptsOf (tok : Tokenizer) (p : ℚ) (r : Rng) (fs : List Example) : List String :=
  ((composeLoop tok p r fs).1).map (fun x => x.1)

/-- The `image_start_positions` list accumulated by the loop, in input order. -/
def positionsOf (tok : Tokenizer) (p : ℚ) (r : Rng) (fs : List Example) : List ℕ :=
  ((composeLoop tok p r fs).1).map (fun x => x.2.1)

/-- The `kinds` list accumulated by the loop, in input order. -/
def kindsOf (tok : Tokenizer) (p : ℚ) (r : Rng) (fs : List Example) : List ℕ :=
  ((composeLoop tok p r fs).1).map (fun x => x.2.2)

/-- The padded width of the tokenized batch. -/
def widthOf (tok : Tokenizer) (p : ℚ) (r : Rng) (fs : List Example) : ℕ :=
  padWidth (encodeAll tok (promptsOf tok p r fs))

/-- One image-mask row: an all-false row of the padded width with
`[pos, pos + IMAGE_LEN)` written true by slice assignment
(`src/utils.py` lines 90-93). -/
def maskRowOf (w pos : ℕ) : List Bool :=
  setTrueSlice (List.replicate w false) pos (pos + IMAGE_LEN)

/-- The collater `_collater` (`src/utils.py` lines 36-98).  The `assert` on
`p` is modelled as an error result; on failure the rng is returned untouched.
On success the per-example loop runs in input order, the prompts are encoded
and padded, the image masks are written by slice assignment over an all-false
grid of the attention-mask shape, and the four output fields are returned
together with the advanced rng. -/
def collater (tok : Tokenizer) (p : ℚ) (r : Rng) (features : List Example) :
    Except String BatchRecord × Rng :=
  if 0 ≤ p ∧ p ≤ 1 then
    (.ok
      { input_ids :=
          (encodeAll tok (promptsOf tok p r features)).map
            (padRow tok.pad (widthOf tok p r features))
        attention_mask :=
          (encodeAll tok (promptsOf tok p r features)).map
            (attnRow (widthOf tok p r features))
        image_masks :=
          (positionsOf tok p r features).map
            (maskRowOf (widthOf tok p r features))
        kinds := kindsOf tok p r features }, (composeLoop tok p r features).2)
  else (.error ("p should be in [0.0, 1.0], got " ++ toString p), r)

/-- Registration of one surface token in a vocabulary.  Modelled from the
spec: registering an already-present token is a no-op, a new token is
appended (receiving a fresh, previously-unused id). -/
def addNew (v : List String) (s : String) : List String :=
  if s ∈ v then v else v ++ [s]

/-- Model of `tokenizer.add_tokens(ts)` of the external tokenizer collaborator:
register each listed token in order. -/
def addTokens (t : Tokenizer) (ts : List String) : Tokenizer :=
  { t with vocab := ts.foldl addNew t.vocab }

/-- Function `prepare_tokenizer` (`src/utils.py` lines 103-107): register the 512
pixel tokens, then the four structural tokens, and return the tokenizer. -/
def prepare_tokenizer (t : Tokenizer) : Tokenizer :=
  addTokens (addTokens t PIXEL_TOKENS)
    [IMAGE_FIRST_TOKEN, TEXT_FIRST_TOKEN, IMAGE_TOKEN, TEXT_TOKEN]

/-- The rng state seen by the per-example loop when it reaches example `i`. -/
def nthState (tok : Tokenizer) (p : ℚ) : Rng → List Example → ℕ → Rng
  | r, _, 0 => r
  | r, [], _ + 1 => r
  | r, ex :: rest, i + 1 => nthState tok p (composeExample tok p r ex).2 rest i

/-! ### Concrete instances used to exercise the theorems -/

/-- A tokenizer model whose tokenization is empty (every string yields no
ids), with sequence-start id 1 and pad id 0. -/
def tokW : Tokenizer :=
  { vocab := [], tokenize := fun _ => [], bos := 1, pad := 0 }

/-- A tokenizer model that yields 1200 ids for any input, long enough that a
row fully contains the 1024-token image span. -/
def tokBig : Tokenizer :=
  { vocab := [], tokenize := fun _ => List.replicate 1200 7, bos := 1, pad := 0 }

/-- An rng state with one uniform draw 1/2 and one choice index 0. -/
def rngW : Rng := { uniforms := [1/2], choices := [0] }

/-- An exhausted rng state (all draws default to 0). -/
def rngE : Rng := { uniforms := [], choices := [] }

/-- An example with a single-string caption. -/
def exW : Example := { palette_images := "[000][001]", captions := .str "a cat" }

/-- An example with a two-element caption list. -/
def exL : Example := { palette_images := "img", captions := .list ["a cat", "a feline"] }

/-! ### Helper lemmas -/

lemma resolveCaption_uniforms (c : Captions) (r : Rng) :
    ((resolveCaption c r).2).uniforms = r.uniforms := by
  cases c <;> simp [resolveCaption, Rng.choiceIdx]

lemma composeExample_uniforms (tok : Tokenizer) (p : ℚ) (r : Rng) (ex : Example) :
    ((composeExample tok p r ex).2).uniforms = r.uniforms.tail := by
  simp [composeExample, resolveCaption_uniforms, Rng.random]

lemma composeLoop_length (tok : Tokenizer) (p : ℚ) (r : Rng) (fs : List Example) :
    ((composeLoop tok p r fs).1).length = fs.length := by
  induction fs generalizing r with
  | nil => simp [composeLoop]
  | cons ex rest ih => simp [composeLoop, ih]

lemma composeLoop_getD (tok : Tokenizer) (p : ℚ) (r : Rng) (fs : List Example)
    (i : ℕ) (hi : i < fs.length) (d : String × ℕ × ℕ) (dEx : Example) :
    ((composeLoop tok p r fs).1).getD i d =
      (composeExample tok p (nthState tok p r fs i) (fs.getD i dEx)).1 := by
  induction fs generalizing r i with
  | nil => simp at hi
  | cons ex rest ih =>
      cases i with
      | zero => simp [composeLoop, nthState]
      | succ i =>
          simp only [composeLoop, List.getD_cons_succ, nthState]
          exact ih _ i (by simpa using hi)

lemma composeExample_kind (tok : Tokenizer) (p : ℚ) (r : Rng) (ex : Example) :
    (composeExample tok p r ex).1.2.2 = 0 ∨ (composeExample tok p r ex).1.2.2 = 1 := by
  by_cases h : r.random.1 > 1 - p <;> simp [composeExample, h]

lemma setTrueSlice_length (l : List Bool) (a b : ℕ) :
    (setTrueSlice l a b).length = l.length := by
  induction l generalizing a b with
  | nil => rfl
  | cons x xs ih => simp [setTrueSlice, ih]

lemma setTrueSlice_getD (w a b j : ℕ) (hj : j < w) :
    (setTrueSlice (List.replicate w false) a b).getD j false =
      decide (a ≤ j ∧ j < b) := by
  induction w generalizing a b j with
  | zero => omega
  | succ w ih =>
      rw [List.replicate_succ]
      cases j with
      | zero =>
          simp only [setTrueSlice, List.getD_cons_zero]
          by_cases h : a = 0 ∧ 0 < b
          · simp [h]
          · simp [h]
      | succ j =>
          simp only [setTrueSlice, List.getD_cons_succ]
          rw [ih (a - 1) (b - 1) j (by omega)]
          congr 1
          apply propext
          constructor <;> intro h <;> omega

lemma setTrueSlice_count (w a b : ℕ) :
    (setTrueSlice (List.replicate w false) a b).count true =
      min b w - min a w := by
  induction w generalizing a b with
  | zero => simp [setTrueSlice]
  | succ w ih =>
      rw [List.replicate_succ]
      simp only [setTrueSlice, List.count_cons, ih (a - 1) (b - 1)]
      by_cases h : a = 0 ∧ 0 < b
      · simp [h]; omega
      · simp [h]; omega

lemma padWidth_ge (ls : List (List ℕ)) : ∀ l ∈ ls, l.length ≤ padWidth ls := by
  induction ls with
  | nil => simp
  | cons x xs ih =>
      intro l hl
      rcases List.mem_cons.mp hl with h | h
      · subst h
        simp only [padWidth, List.foldr_cons]
        omega
      · have hx := ih l h
        simp only [padWidth, List.foldr_cons]
        simp only [padWidth] at hx
        omega

lemma padRow_length (padTok w : ℕ) (l : List ℕ) (h : l.length ≤ w) :
    (padRow padTok w l).length = w := by
  simp [padRow]; omega

lemma attnRow_length (w : ℕ) (l : List ℕ) (h : l.length ≤ w) :
    (attnRow w l).length = w := by
  simp [attnRow]; omega

lemma maskRowOf_length (w pos : ℕ) : (maskRowOf w pos).length = w := by
  simp [maskRowOf, setTrueSlice_length]

lemma getD_map {α β : Type} (f : α → β) (l : List α) (i : ℕ) (hi : i < l.length)
    (d : β) (d' : α) : (l.map f).getD i d = f (l.getD i d') := by
  rw [List.getD_eq_getElem l d' hi,
    List.getD_eq_getElem (l.map f) d (by simpa using hi)]
  simp

lemma coin_rngE_false : decide (rngE.random.1 > 1 - (0:ℚ)) = false := by
  rw [decide_eq_false_iff_not]
  norm_num [rngE, Rng.random]

lemma getD_of_le {α : Type} (l : List α) (d : α) {j : ℕ} (h : l.length ≤ j) :
    l.getD j d = d := by
  simp [List.getD_eq_getElem?_getD, List.getElem?_eq_none h]

lemma getD_mem {α : Type} (l : List α) (d : α) {i : ℕ} (h : i < l.length) :
    l.getD i d ∈ l := by
  rw [List.getD_eq_getElem l d h]
  exact List.getElem_mem h

lemma composeLoop_kind_mem (tok : Tokenizer) (p : ℚ) (r : Rng) (fs : List Example) :
    ∀ row ∈ (composeLoop tok p r fs).1, row.2.2 = 0 ∨ row.2.2 = 1 := by
  induction fs generalizing r with
  | nil => simp [composeLoop]
  | cons ex rest ih =>
      intro row hrow
      simp only [composeLoop, List.mem_cons] at hrow
      rcases hrow with h | h
      · subst h
        exact composeExample_kind tok p r ex
      · exact ih _ row h

lemma promptsOf_length (tok : Tokenizer) (p : ℚ) (r : Rng) (fs : List Example) :
    (promptsOf tok p r fs).length = fs.length := by
  simp [promptsOf, composeLoop_length]

lemma positionsOf_length (tok : Tokenizer) (p : ℚ) (r : Rng) (fs : List Example) :
    (positionsOf tok p r fs).length = fs.length := by
  simp [positionsOf, composeLoop_length]

lemma kindsOf_length (tok : Tokenizer) (p : ℚ) (r : Rng) (fs : List Example) :
    (kindsOf tok p r fs).length = fs.length := by
  simp [kindsOf, composeLoop_length]

lemma encodeAll_length (tok : Tokenizer) (prompts : List String) :
    (encodeAll tok prompts).length = prompts.length := by
  simp [encodeAll]

lemma mem_foldl_addNew (v ts : List String) (s : String) (hs : s ∈ v) :
    s ∈ ts.foldl addNew v := by
  induction ts generalizing v with
  | nil => exact hs
  | cons t rest ih =>
      simp only [List.foldl_cons]
      apply ih
      by_cases h : t ∈ v
      · simpa [addNew, h] using hs
      · simp [addNew, h, hs]

lemma mem_foldl_addNew_arg (v ts : List String) (s : String) (hs : s ∈ ts) :
    s ∈ ts.foldl addNew v := by
  induction ts generalizing v with
  | nil => simp at hs
  | cons t rest ih =>
      simp only [List.foldl_cons]
      rcases List.mem_cons.mp hs with h | h
      · subst h
        apply mem_foldl_addNew
        by_cases h : s ∈ v
        · simp [addNew, h]
        · simp [addNew, h]
      · exact ih _ h

lemma foldl_addNew_of_subset (v ts : List String) (h : ∀ s ∈ ts, s ∈ v) :
    ts.foldl addNew v = v := by
  induction ts with
  | nil => rfl
  | cons t rest ih =>
      have ht : t ∈ v := h t (List.mem_cons_self t rest)
      simp only [List.foldl_cons, addNew, if_pos ht]
      exact ih (fun s hs => h s (List.mem_cons_of_mem t hs))

lemma addTokens_mem_vocab (t : Tokenizer) (ts : List String) (s : String)
    (hs : s ∈ t.vocab) : s ∈ (addTokens t ts).vocab :=
  mem_foldl_addNew t.vocab ts s hs

lemma addTokens_mem_arg (t : Tokenizer) (ts : List String) (s : String)
    (hs : s ∈ ts) : s ∈ (addTokens t ts).vocab :=
  mem_foldl_addNew_arg t.vocab ts s hs

lemma addTokens_of_subset (t : Tokenizer) (ts : List String)
    (h : ∀ s ∈ ts, s ∈ t.vocab) : addTokens t ts = t := by
  simp [addTokens, foldl_addNew_of_subset t.vocab ts h]

lemma collater_ok (tok : Tokenizer) (p : ℚ) (r : Rng) (fs : List Example)
    (hp : 0 ≤ p ∧ p ≤ 1) :
    collater tok p r fs =
      (.ok
        { input_ids :=
            (encodeAll tok (promptsOf tok p r fs)).map
              (padRow tok.pad (widthOf tok p r fs))
          attention_mask :=
            (encodeAll tok (promptsOf tok p r fs)).map
              (attnRow (widthOf tok p r fs))
          image_masks :=
            (positionsOf tok p r fs).map (maskRowOf (widthOf tok p r fs))
          kinds := kindsOf tok p r fs }, (composeLoop tok p r fs).2) := by
  simp [collater, hp]

/-! ### Claim theorems -/

/-- C1: for every example the recorded image start offset is exactly 2 when
the image-first layout was chosen (kind 0), and exactly 3 plus the number of
tokens the tokenizer produces for the resolved caption tokenized in
isolation when the text-first layout was chosen (kind 1). -/
theorem image_offset_by_layout (tok : Tokenizer) (p : ℚ) (r : Rng) (ex : Example) :
    ((composeExample tok p r ex).1.2.2 = 0 ∧ (composeExample tok p r ex).1.2.1 = 2)
    ∨ ((composeExample tok p r ex).1.2.2 = 1 ∧
        (composeExample tok p r ex).1.2.1 =
          3 + (tok.tokenize ((resolveCaption ex.captions r.random.2).1)).length) := by
  by_cases h : r.random.1 > 1 - p
  · right
    simp [composeExample, imageStartPosition, h]
  · left
    simp [composeExample, imageStartPosition, h]

/-- C5: the composed prompt is exactly one of the two fixed layouts, chosen
by the coin: text-first is `[TextFirst]` + caption + `[Image]` + image
(kind 1), image-first is `[ImageFirst]` + image + `[Text]` + caption
(kind 0), with no other characters inserted. -/
theorem prompt_two_layouts (tok : Tokenizer) (p : ℚ) (r : Rng) (ex : Example) :
    ((composeExample tok p r ex).1.2.2 = 1 ∧
        (composeExample tok p r ex).1.1 =
          TEXT_FIRST_TOKEN ++ (resolveCaption ex.captions r.random.2).1
            ++ IMAGE_TOKEN ++ ex.palette_images)
    ∨ ((composeExample tok p r ex).1.2.2 = 0 ∧
        (composeExample tok p r ex).1.1 =
          IMAGE_FIRST_TOKEN ++ ex.palette_images ++ TEXT_TOKEN
            ++ (resolveCaption ex.captions r.random.2).1) := by
  by_cases h : r.random.1 > 1 - p
  · left
    simp [composeExample, composePrompt, h]
  · right
    simp [composeExample, composePrompt, h]

/-- C4: when `p` lies outside `[0, 1]` the collater fails immediately with
the invalid-argument error, and the rng state is returned untouched: no
randomness was consumed and no per-example work was done. -/
theorem invalid_p_fails_immediately (tok : Tokenizer) (p : ℚ) (r : Rng)
    (fs : List Example) (h : ¬ (0 ≤ p ∧ p ≤ 1)) :
    collater tok p r fs =
      (.error ("p should be in [0.0, 1.0], got " ++ toString p), r) := by
  simp [collater, h]

/-- Witness for C4 at the concrete out-of-range value `p = 2`. -/
theorem invalid_p_fails_immediately_witness :
    ¬ ((0:ℚ) ≤ 2 ∧ (2:ℚ) ≤ 1) ∧
    collater tokW 2 rngW [exW] =
      (.error ("p should be in [0.0, 1.0], got " ++ toString (2:ℚ)), rngW) :=
  ⟨by norm_num, invalid_p_fails_immediately tokW 2 rngW [exW] (by norm_num)⟩

/-- C6: `prepare_tokenizer` is idempotent — preparing an already-prepared
tokenizer leaves the vocabulary with identical size and content, because
registering an already-present token is a no-op. -/
theorem prepare_tokenizer_idempotent (t : Tokenizer) :
    prepare_tokenizer (prepare_tokenizer t) = prepare_tokenizer t := by
  unfold prepare_tokenizer
  rw [addTokens_of_subset (addTokens (addTokens t PIXEL_TOKENS)
      [IMAGE_FIRST_TOKEN, TEXT_FIRST_TOKEN, IMAGE_TOKEN, TEXT_TOKEN]) PIXEL_TOKENS
      (fun s hs => addTokens_mem_vocab _ _ s (addTokens_mem_arg _ _ s hs))]
  exact addTokens_of_subset _ _ (fun s hs => addTokens_mem_arg _ _ s hs)

/-- C7: caption resolution uses a single-string caption verbatim, picks an
element of a list caption via the rng choice, and the very same resolved
caption appears in the composed prompt and in the offset computation. -/
theorem caption_resolution_consistent (tok : Tokenizer) (p : ℚ) (r : Rng)
    (ex : Example) :
    (∀ s, ex.captions = .str s → (resolveCaption ex.captions r.random.2).1 = s)
    ∧ (∀ l, ex.captions = .list l → l ≠ [] →
        (resolveCaption ex.captions r.random.2).1 ∈ l)
    ∧ (composeExample tok p r ex).1.1 =
        composePrompt (decide (r.random.1 > 1 - p)) ex.palette_images
          ((resolveCaption ex.captions r.random.2).1)
    ∧ (composeExample tok p r ex).1.2.1 =
        imageStartPosition tok (decide (r.random.1 > 1 - p))
          ((resolveCaption ex.captions r.random.2).1) := by
  refine ⟨?_, ?_, rfl, rfl⟩
  · intro s hs
    rw [hs]
    rfl
  · intro l hl hne
    rw [hl]
    simp only [resolveCaption]
    have hlen : 0 < l.length := List.length_pos.mpr hne
    have hmod : (r.random.2.choiceIdx.1) % l.length < l.length :=
      Nat.mod_lt _ hlen
    rw [List.getD_eq_getElem l "" hmod]
    exact List.getElem_mem hmod

/-- With `p = 0` and uniform draws in `[0,1)` every loop row has kind 0. -/
lemma composeLoop_kinds_zero (tok : Tokenizer) (r : Rng) (fs : List Example)
    (hu : ∀ x ∈ r.uniforms, 0 ≤ x ∧ x < 1) :
    ∀ row ∈ (composeLoop tok 0 r fs).1, row.2.2 = 0 := by
  induction fs generalizing r with
  | nil => simp [composeLoop]
  | cons ex rest ih =>
      intro row hrow
      simp only [composeLoop, List.mem_cons] at hrow
      rcases hrow with h | h
      · subst h
        have hle : r.random.1 ≤ 1 := by
          simp only [Rng.random]
          cases hl : r.uniforms with
          | nil => simp
          | cons a l =>
              have ha := hu a (by rw [hl]; exact List.mem_cons_self a l)
              simp only [List.headD_cons]
              exact le_of_lt ha.2
        have hcoin : decide (r.random.1 > 1 - (0:ℚ)) = false := by
          rw [decide_eq_false_iff_not, sub_zero]
          exact not_lt.mpr hle
        simp [composeExample, hcoin]
        exact hle
      · refine ih (composeExample tok 0 r ex).2 ?_ row h
        intro x hx
        rw [composeExample_uniforms] at hx
        exact hu x (List.tail_subset r.uniforms hx)

/-- C3: with `p = 0`, for any rng whose uniform draws are confined to
`[0,1)`, the collater succeeds and every output kind equals 0
(image-first), since `u > 1.0` never holds. -/
theorem p_zero_all_image_first (tok : Tokenizer) (r : Rng) (fs : List Example)
    (hu : ∀ x ∈ r.uniforms, 0 ≤ x ∧ x < 1)
    (b : BatchRecord) (r2 : Rng)
    (hok : collater tok 0 r fs = (.ok b, r2)) :
    ∀ k ∈ b.kinds, k = 0 := by
  rw [collater_ok tok 0 r fs (by norm_num)] at hok
  injection hok with h1 h2
  injection h1 with h1
  intro k hk
  rw [← h1] at hk
  simp only [kindsOf] at hk
  obtain ⟨row, hrow, hkk⟩ := List.mem_map.mp hk
  rw [← hkk]
  exact composeLoop_kinds_zero tok r fs hu row hrow

/-- Witness for C3: a concrete rng with the single draw 1/2 and a one-example
batch; the resulting kinds are all 0. -/
theorem p_zero_all_image_first_witness :
    (∀ x ∈ rngW.uniforms, 0 ≤ x ∧ x < 1) ∧
    ∃ b r2, collater tokW 0 rngW [exW] = (.ok b, r2) ∧ ∀ k ∈ b.kinds, k = 0 := by
  have hu : ∀ x ∈ rngW.uniforms, 0 ≤ x ∧ x < 1 := by
    intro x hx
    simp only [rngW, List.mem_singleton] at hx
    subst hx
    norm_num
  exact ⟨hu, _, _, collater_ok tokW 0 rngW [exW] (by norm_num),
    p_zero_all_image_first tokW rngW [exW] hu _ _
      (collater_ok tokW 0 rngW [exW] (by norm_num))⟩

/-- C2: the collater succeeds and each image-mask row is true exactly on the
contiguous span starting at that example's recorded offset and of length
`IMAGE_LEN`; consequently the true-count of a row is exactly `IMAGE_LEN`
whenever the row's real token count is at least offset + `IMAGE_LEN`. -/
theorem image_mask_exact_span (tok : Tokenizer) (p : ℚ) (r : Rng)
    (fs : List Example) (hp : 0 ≤ p ∧ p ≤ 1) (i : ℕ) (hi : i < fs.length) :
    ∃ b r2, collater tok p r fs = (.ok b, r2)
      ∧ (∀ j, j < widthOf tok p r fs →
          ((b.image_masks.getD i []).getD j false = true ↔
            (positionsOf tok p r fs).getD i 0 ≤ j ∧
              j < (positionsOf tok p r fs).getD i 0 + IMAGE_LEN))
      ∧ ((positionsOf tok p r fs).getD i 0 + IMAGE_LEN ≤
            ((encodeAll tok (promptsOf tok p r fs)).getD i []).length →
          (b.image_masks.getD i []).count true = IMAGE_LEN) := by
  have hpos : i < (positionsOf tok p r fs).length := by
    rw [positionsOf_length]
    exact hi
  have hrow : ((positionsOf tok p r fs).map
      (maskRowOf (widthOf tok p r fs))).getD i [] =
      maskRowOf (widthOf tok p r fs) ((positionsOf tok p r fs).getD i 0) :=
    getD_map _ _ i hpos [] 0
  refine ⟨_, _, collater_ok tok p r fs hp, ?_, ?_⟩
  · intro j hj
    simp only [hrow, maskRowOf]
    rw [setTrueSlice_getD (widthOf tok p r fs) _ _ j hj]
    simp only [decide_eq_true_eq]
  · intro hle
    have hlen : i < (encodeAll tok (promptsOf tok p r fs)).length := by
      rw [encodeAll_length, promptsOf_length]
      exact hi
    have hw : ((encodeAll tok (promptsOf tok p r fs)).getD i []).length ≤
        widthOf tok p r fs :=
      padWidth_ge _ _ (getD_mem _ [] hlen)
    simp only [hrow, maskRowOf]
    rw [setTrueSlice_count]
    omega

/-- Witness for C2: a one-example batch under a tokenizer yielding 1200 ids,
so the row fully contains the 1024-token image span and the true-count is
exactly `IMAGE_LEN`. -/
theorem image_mask_exact_span_witness :
    ((0:ℚ) ≤ 0 ∧ (0:ℚ) ≤ 1) ∧ (0 < ([exW] : List Example).length) ∧
    ∃ b r2, collater tokBig 0 rngE [exW] = (.ok b, r2) ∧
      (b.image_masks.getD 0 []).count true = IMAGE_LEN := by
  obtain ⟨b, r2, heq, _, hcnt⟩ :=
    image_mask_exact_span tokBig 0 rngE [exW] (by norm_num) 0 (by simp)
  refine ⟨⟨le_refl 0, by norm_num⟩, by simp, b, r2, heq, hcnt ?_⟩
  have hIL : IMAGE_LEN = 1024 := by norm_num [IMAGE_LEN, IMAGE_DIM]
  have hpos2 : (positionsOf tokBig 0 rngE [exW]).getD 0 0 = 2 := by
    simp only [positionsOf, composeLoop, List.map_cons, List.map_nil,
      List.getD_cons_zero, composeExample, coin_rngE_false]
    rfl
  have hlen2 : ((encodeAll tokBig (promptsOf tokBig 0 rngE [exW])).getD 0 []).length
      = 1201 := by
    simp only [promptsOf, composeLoop, List.map_cons, List.map_nil, encodeAll,
      List.getD_cons_zero]
    simp only [tokBig]
    simp only [List.length_cons, List.length_replicate]
  rw [hpos2, hlen2, hIL]
  norm_num

/-- C9: the image-mask write is total and in-bounds — the written row keeps
the padded width, every true position lies inside the row, the true-count is
the span length clamped to the space left of the offset, and it is zero when
the offset is at or beyond the row width; no error is raised. -/
theorem mask_write_total (tok : Tokenizer) (p : ℚ) (r : Rng)
    (fs : List Example) (hp : 0 ≤ p ∧ p ≤ 1) (i : ℕ) (hi : i < fs.length) :
    ∃ b r2, collater tok p r fs = (.ok b, r2)
      ∧ (b.image_masks.getD i []).length = widthOf tok p r fs
      ∧ (∀ j, (b.image_masks.getD i []).getD j false = true →
          j < widthOf tok p r fs)
      ∧ (b.image_masks.getD i []).count true =
          min IMAGE_LEN (widthOf tok p r fs - (positionsOf tok p r fs).getD i 0)
      ∧ (widthOf tok p r fs ≤ (positionsOf tok p r fs).getD i 0 →
          (b.image_masks.getD i []).count true = 0) := by
  have hpos : i < (positionsOf tok p r fs).length := by
    rw [positionsOf_length]
    exact hi
  have hrow : ((positionsOf tok p r fs).map
      (maskRowOf (widthOf tok p r fs))).getD i [] =
      maskRowOf (widthOf tok p r fs) ((positionsOf tok p r fs).getD i 0) :=
    getD_map _ _ i hpos [] 0
  refine ⟨_, _, collater_ok tok p r fs hp, ?_, ?_, ?_, ?_⟩
  · simp only [hrow]
    exact maskRowOf_length _ _
  · intro j hj
    by_contra hge
    push_neg at hge
    rw [getD_of_le _ _ (by simp only [hrow, maskRowOf_length]; exact hge)] at hj
    exact Bool.false_ne_true hj
  · simp only [hrow, maskRowOf]
    rw [setTrueSlice_count]
    omega
  · intro hge
    simp only [hrow, maskRowOf]
    rw [setTrueSlice_count]
    omega

/-- Witness for C9: with an empty-output tokenizer the padded width is 1
while the image-first offset is 2, so the truncated write sets no position
at all and the collater still succeeds. -/
theorem mask_write_total_witness :
    ((0:ℚ) ≤ 0 ∧ (0:ℚ) ≤ 1) ∧ (0 < ([exW] : List Example).length) ∧
    ∃ b r2, collater tokW 0 rngE [exW] = (.ok b, r2) ∧
      (b.image_masks.getD 0 []).length = widthOf tokW 0 rngE [exW] ∧
      (b.image_masks.getD 0 []).count true = 0 := by
  obtain ⟨b, r2, heq, hlen, _, _, hz⟩ :=
    mask_write_total tokW 0 rngE [exW] (by norm_num) 0 (by simp)
  refine ⟨⟨le_refl 0, by norm_num⟩, by simp, b, r2, heq, hlen, hz ?_⟩
  have hw1 : widthOf tokW 0 rngE [exW] = 1 := by
    simp [widthOf, encodeAll, promptsOf, composeLoop, padWidth, tokW]
  have hpos2 : (positionsOf tokW 0 rngE [exW]).getD 0 0 = 2 := by
    simp only [positionsOf, composeLoop, List.map_cons, List.map_nil,
      List.getD_cons_zero, composeExample, coin_rngE_false]
    rfl
  rw [hw1, hpos2]
  norm_num

/-- C8: the collater succeeds, all four outputs have one entry per input
example, every kind is 0 or 1, and the i-th kind and the i-th id row are the
ones computed from the i-th input example (with the rng state the loop
reaches at step i) — no example is skipped, reordered, or deduplicated. -/
theorem batch_order_preserved (tok : Tokenizer) (p : ℚ) (r : Rng)
    (fs : List Example) (hp : 0 ≤ p ∧ p ≤ 1) :
    ∃ b r2, collater tok p r fs = (.ok b, r2)
      ∧ b.kinds.length = fs.length
      ∧ b.input_ids.length = fs.length
      ∧ (∀ k ∈ b.kinds, k = 0 ∨ k = 1)
      ∧ (∀ i, i < fs.length →
          b.kinds.getD i 0 =
            (composeExample tok p (nthState tok p r fs i)
              (fs.getD i { palette_images := "", captions := .str "" })).1.2.2
          ∧ b.input_ids.getD i [] =
              padRow tok.pad (widthOf tok p r fs)
                (tok.bos :: tok.tokenize
                  ((composeExample tok p (nthState tok p r fs i)
                    (fs.getD i { palette_images := "", captions := .str "" })).1.1))) := by
  refine ⟨_, _, collater_ok tok p r fs hp, ?_, ?_, ?_, ?_⟩
  · simp [kindsOf_length]
  · simp [encodeAll_length, promptsOf_length]
  · intro k hk
    simp only [kindsOf] at hk
    obtain ⟨row, hrow, hkk⟩ := List.mem_map.mp hk
    rw [← hkk]
    exact composeLoop_kind_mem tok p r fs row hrow
  · intro i hi
    have hrows : i < ((composeLoop tok p r fs).1).length := by
      rw [composeLoop_length]
      exact hi
    constructor
    · show (kindsOf tok p r fs).getD i 0 = _
      rw [kindsOf, getD_map _ _ i hrows 0 ("", 0, 0),
        composeLoop_getD tok p r fs i hi ("", 0, 0)
          { palette_images := "", captions := .str "" }]
    · have henc : i < (encodeAll tok (promptsOf tok p r fs)).length := by
        rw [encodeAll_length, promptsOf_length]
        exact hi
      have hpl : i < (promptsOf tok p r fs).length := by
        rw [promptsOf_length]
        exact hi
      show ((encodeAll tok (promptsOf tok p r fs)).map
          (padRow tok.pad (widthOf tok p r fs))).getD i [] = _
      rw [getD_map _ _ i henc [] [],
        encodeAll, getD_map _ _ i hpl [] "",
        promptsOf, getD_map _ _ i hrows "" ("", 0, 0),
        composeLoop_getD tok p r fs i hi ("", 0, 0)
          { palette_images := "", captions := .str "" }]

/-- Witness for C8 on a concrete two-example batch: two kinds, each 0 or 1,
and the first kind is the one computed from the first example. -/
theorem batch_order_preserved_witness :
    ((0:ℚ) ≤ 0 ∧ (0:ℚ) ≤ 1) ∧ (0 < ([exW, exL] : List Example).length) ∧
    ∃ b r2, collater tokW 0 rngW [exW, exL] = (.ok b, r2) ∧
      b.kinds.length = 2 ∧ (∀ k ∈ b.kinds, k = 0 ∨ k = 1) ∧
      b.kinds.getD 0 0 =
        (composeExample tokW 0 (nthState tokW 0 rngW [exW, exL] 0)
          (([exW, exL] : List Example).getD 0
            { palette_images := "", captions := .str "" })).1.2.2 := by
  obtain ⟨b, r2, heq, hk, _, hmem, hidx⟩ :=
    batch_order_preserved tokW 0 rngW [exW, exL] (by norm_num)
  exact ⟨⟨le_refl 0, by norm_num⟩, by simp, b, r2, heq, by simpa using hk, hmem,
    (hidx 0 (by simp)).1⟩

/-- C10: every successful call returns the four-field record with
`image_masks` of the same 2D shape as `attention_mask` and `input_ids`
(same row count and same padded row width), and `kinds` of length equal to
the number of input examples, for every `p` in `[0, 1]`. -/
theorem output_record_shapes (tok : Tokenizer) (p : ℚ) (r : Rng)
    (fs : List Example) (hp : 0 ≤ p ∧ p ≤ 1) :
    ∃ b r2, collater tok p r fs = (.ok b, r2)
      ∧ b.input_ids.length = fs.length
      ∧ b.attention_mask.length = fs.length
      ∧ b.image_masks.length = fs.length
      ∧ b.kinds.length = fs.length
      ∧ (∀ row ∈ b.input_ids, row.length = widthOf tok p r fs)
      ∧ (∀ row ∈ b.attention_mask, row.length = widthOf tok p r fs)
      ∧ (∀ row ∈ b.image_masks, row.length = widthOf tok p r fs) := by
  refine ⟨_, _, collater_ok tok p r fs hp, ?_, ?_, ?_, ?_, ?_, ?_, ?_⟩
  · simp [encodeAll_length, promptsOf_length]
  · simp [encodeAll_length, promptsOf_length]
  · simp [positionsOf_length]
  · simp [kindsOf_length]
  · intro row hrow
    simp only [List.mem_map] at hrow
    obtain ⟨e, he, hre⟩ := hrow
    rw [← hre]
    exact padRow_length _ _ e (padWidth_ge _ e he)
  · intro row hrow
    simp only [List.mem_map] at hrow
    obtain ⟨e, he, hre⟩ := hrow
    rw [← hre]
    exact attnRow_length _ e (padWidth_ge _ e he)
  · intro row hrow
    simp only [List.mem_map] at hrow
    obtain ⟨pos, _, hre⟩ := hrow
    rw [← hre]
    exact maskRowOf_length _ _

/-- Witness for C10 on a concrete one-example batch: all four fields have one
row and the grids share their shape. -/
theorem output_record_shapes_witness :
    ((0:ℚ) ≤ 0 ∧ (0:ℚ) ≤ 1) ∧
    ∃ b r2, collater tokW 0 rngW [exW] = (.ok b, r2) ∧
      b.input_ids.length = 1 ∧ b.attention_mask.length = 1 ∧
      b.image_masks.length = 1 ∧ b.kinds.length = 1 := by
  obtain ⟨b, r2, heq, h1, h2, h3, h4, _, _, _⟩ :=
    output_record_shapes tokW 0 rngW [exW] (by norm_num)
  exact ⟨⟨le_refl 0, by norm_num⟩, b, r2, heq, by simpa using h1, by simpa using h2,
    by simpa using h3, by simpa using h4⟩

/-- Witness for C7 on a concrete two-element caption list: the resolved
caption is one of the two given strings. -/
theorem caption_resolution_consistent_witness :
    exL.captions = Captions.list ["a cat", "a feline"] ∧
    (["a cat", "a feline"] : List String) ≠ [] ∧
    (resolveCaption exL.captions rngW.random.2).1 ∈ ["a cat", "a feline"] := by
  refine ⟨rfl, by simp, ?_⟩
  exact (caption_resolution_consistent tokW 0 rngW exL).2.1
    ["a cat", "a feline"] rfl (by simp)

end Afti
